import Mathlib

/-!
Verification of the file-sync engine of `gopro_sync.py`.

The embedding models `copy_or_move_files` (the sync engine), and the polling
loop of `main` (the orchestrator), over an explicit filesystem state:

* a source file is a record of a unique identifier (standing for its full
  path under the source directory), its base name, its modification date
  (the calendar date that `datetime.fromtimestamp(mtime)` yields) and its
  size in bytes;
* the destination tree is a list of entries, each an existing file at
  `DEST_DIR/<bucket>/<basename>`, remembering which source file's bytes it
  holds;
* the exceptions that the code's `try`/`except` blocks catch are modelled by
  failure oracles: a flag for `os.makedirs(DEST_DIR)` failing (line 212) and
  two per-file predicates for `os.makedirs(dest_subdir)` (line 240) and the
  `shutil.move`/`shutil.copy2` transfer (lines 246/250) raising.
-/

namespace GoProSync

/-- A calendar date, as produced by `datetime.fromtimestamp` on a file's
modification time. -/
structure Date where
  month : Nat
  day : Nat
  year : Nat
deriving DecidableEq, Repr

/-- Zero-pad a number to two digits, as strftime's `%m` and `%d` do. -/
def pad2 (n : Nat) : String :=
  if n < 10 then "0" ++ toString n else toString n

/-- `date_obj.strftime("%m-%d-%Y")` (line 220): the destination bucket name. -/
def fmtDate (d : Date) : String :=
  pad2 d.month ++ "-" ++ pad2 d.day ++ "-" ++ toString d.year

/-- A regular file found by `os.walk(source_dir)`. `id` stands for the full
source path (`src_path`), which is unique per file. -/
structure SrcFile where
  id : Nat
  base : String
  mtime : Date
  size : Nat
deriving DecidableEq, Repr

/-- The destination-relative path of a file: the bucket directory derived
from its modification date, and its base name (lines 218-222). -/
def destPathOf (f : SrcFile) : String × String :=
  (fmtDate f.mtime, f.base)

/-- An existing file in the destination tree at `DEST_DIR/<bucket>/<base>`;
`content` is the `id` of the source file whose bytes it holds. -/
structure DestEntry where
  bucket : String
  base : String
  content : Nat
  size : Nat
deriving DecidableEq, Repr

/-- Content currently stored at destination path `p`, if any. -/
def lookupDest (dest : List DestEntry) (p : String × String) : Option Nat :=
  (dest.find? (fun e => decide (e.bucket = p.1 ∧ e.base = p.2))).map (fun e => e.content)

/-- `os.path.exists(dest_path)` (line 223). -/
def destExists (dest : List DestEntry) (p : String × String) : Bool :=
  dest.any (fun e => decide (e.bucket = p.1 ∧ e.base = p.2))

/-- Writing a file to destination path `p`: any previous file at that exact
path is overwritten (`shutil.copy2`/`shutil.move` replace an existing
target). -/
def writeDest (dest : List DestEntry) (p : String × String) (f : SrcFile) : List DestEntry :=
  dest.filter (fun e => !decide (e.bucket = p.1 ∧ e.base = p.2)) ++ [⟨p.1, p.2, f.id, f.size⟩]

/-- The filesystem state the engine sees: the source files in `os.walk`
enumeration order, and the existing destination entries. -/
structure FS where
  srcFiles : List SrcFile
  destFiles : List DestEntry
deriving DecidableEq, Repr

/-- `args.move`: move instead of copy. -/
inductive Mode where
  | copy
  | move
deriving DecidableEq, Repr

/-- Lines 214-224: enumerate every file and keep those whose destination
path does not yet exist. The check runs against the destination state as it
is before any transfer, because the whole list is built before the
processing loop starts. -/
def candidates (fs : FS) : List SrcFile :=
  fs.srcFiles.filter (fun f => !destExists fs.destFiles (destPathOf f))

/-- State threaded through the per-candidate loop: current source tree,
current destination tree, `processed_new_files` and `total_size_processed`. -/
structure LoopState where
  src : List SrcFile
  dest : List DestEntry
  processed : Nat
  bytes : Nat
deriving Repr

/-- One iteration of the per-candidate loop (lines 234-261).  A failure of
`os.makedirs(dest_subdir)` or of the transfer raises inside the inner `try`;
the `except` catches it, logs, and leaves every counter and both trees
unchanged.  On success the file is written at its destination path, the
source file is removed when the mode is `move` (`shutil.move` removes its
source only once the destination write has succeeded), and the counters
grow by one file and `os.path.getsize(dest_path)` bytes. -/
def processOne (mode : Mode) ( mkdirFail transferFail : SrcFile → Bool)
    (st : LoopState) (f : SrcFile) : LoopState :=
  if mkdirFail f then st
  else if transferFail f then st
  else
    let p := destPathOf f
    let dest' := writeDest st.dest p f
    let src' := match mode with
      | Mode.move => st.src.filter (fun g => !decide (g.id = f.id))
      | Mode.copy => st.src
    ⟨src', dest', st.processed + 1, st.bytes + f.size⟩

/-- The whole per-candidate loop: fold `processOne` over the candidate
list. -/
def runLoop (mode : Mode) ( mkdirFail transferFail : SrcFile → Bool)
    (st : LoopState) (l : List SrcFile) : LoopState :=
  l.foldl (processOne mode mkdirFail transferFail) st

/-- The tuple `copy_or_move_files` returns (lines 265 and 268): success
flag, `processed_new_files`, `total_new_files`, `total_size_processed`. -/
structure Outcome where
  success : Bool
  processed : Nat
  total : Nat
  bytes : Nat
deriving DecidableEq, Repr

/-- `copy_or_move_files(source_dir)` (lines 207-268).  `rootFail` models
`os.makedirs(DEST_DIR, exist_ok=True)` (line 212) raising, which the outer
`except` turns into `(False, 0, 0, 0)` before any file is touched.
Otherwise the candidate list is computed once, each candidate is processed
with per-file failure isolation, and `(True, processed, total, bytes)` is
returned together with the final filesystem state. -/
def copy_or_move_files (mode : Mode) (rootFail : Bool)
    ( mkdirFail transferFail : SrcFile → Bool) (fs : FS) : Outcome × FS :=
  if rootFail then (⟨false, 0, 0, 0⟩, fs)
  else
    let cands := candidates fs
    let final := runLoop mode mkdirFail transferFail ⟨fs.srcFiles, fs.destFiles, 0, 0⟩ cands
    (⟨true, final.processed, cands.length, final.bytes⟩, ⟨final.src, final.dest⟩)

/-- What `main` finds once a mount path is produced: whether the mount is
readable (line 358), whether `os.listdir` raises (line 364), and the
filesystem state the engine will run on (the DCIM subdirectory when present,
else the mount root, lines 369-376). -/
structure MountInfo where
  accessible : Bool
  listFails : Bool
  fs : FS

/-- The observable end of one run of `main`: the `sys.exit` code and
whether `copy_or_move_files` was ever invoked. -/
structure MainResult where
  exitCode : Nat
  syncInvoked : Bool
deriving DecidableEq, Repr

/-- Lines 345-428: with a mount in hand, validate it, list it and run the
sync engine, mapping the outcome to exit code 0 or 1. -/
def handleMount (mode : Mode) (rootFail : Bool)
    ( mkdirFail transferFail : SrcFile → Bool) (m : MountInfo) : MainResult :=
  if !m.accessible then ⟨1, false⟩
  else if m.listFails then ⟨1, false⟩
  else
    let out := (copy_or_move_files mode rootFail mkdirFail transferFail m.fs).1
    if out.success then ⟨0, true⟩ else ⟨1, true⟩

/-- The polling loop of `main` (lines 325-439).  `probe t` is the mount the
locator reports during the iteration starting at second `t` (`none` when no
usable mount is found, covering both "no camera on the USB bus" and "camera
seen but no mount point": both branches sleep one second).  `fuel` is the
seconds left of the 7-second budget; when it runs out the loop condition
`time.time() < timeout` fails and the process exits with code 0 (line 439),
never having invoked the engine. -/
def mainLoopAux (probe : Nat → Option MountInfo) (handle : MountInfo → MainResult) :
    Nat → Nat → MainResult
  | 0, _ => ⟨0, false⟩
  | fuel + 1, t =>
    match probe t with
    | some m => handle m
    | none => mainLoopAux probe handle fuel (t + 1)

/-- One run of `main`: poll from second 0 with a 7-second budget (line 325),
handle the first mount found. -/
def mainRun (probe : Nat → Option MountInfo) (handle : MountInfo → MainResult) : MainResult :=
  mainLoopAux probe handle 7 0

/-- Whether the body of a candidate's inner `try` runs to completion:
neither `os.makedirs(dest_subdir)` nor the transfer itself raises. -/
def okTransfer ( mkdirFail transferFail : SrcFile → Bool) (f : SrcFile) : Bool :=
  !( mkdirFail f || transferFail f)

/-! ### Lemmas about the destination tree -/

theorem find?_eq_head?_filter {α : Type} (p : α → Bool) (l : List α) :
    l.find? p = (l.filter p).head? := by
  induction l with
  | nil => rfl
  | cons a l ih =>
    cases h : p a
    · rw [List.find?_cons_of_neg _ (by simp [h]), List.filter_cons_of_neg (by simp [h]), ih]
    · rw [List.find?_cons_of_pos _ h, List.filter_cons_of_pos h, List.head?_cons]

theorem find?_filter_of_imp {α : Type} (p keep : α → Bool) (l : List α)
    (h : ∀ a, p a = true → keep a = true) :
    (l.filter keep).find? p = l.find? p := by
  induction l with
  | nil => rfl
  | cons a l ih =>
    cases hk : keep a
    · have hp : p a = false := by
        cases hpa : p a
        · rfl
        · rw [h a hpa] at hk; cases hk
      rw [List.filter_cons_of_neg (by simp [hk]), ih, List.find?_cons_of_neg _ (by simp [hp])]
    · cases hp : p a
      · rw [List.filter_cons_of_pos hk, List.find?_cons_of_neg _ (by simp [hp]),
          List.find?_cons_of_neg _ (by simp [hp]), ih]
      · rw [List.filter_cons_of_pos hk, List.find?_cons_of_pos _ hp, List.find?_cons_of_pos _ hp]

theorem lookupDest_writeDest_self (dest : List DestEntry) (p : String × String) (f : SrcFile) :
    lookupDest (writeDest dest p f) p = some f.id := by
  have h1 : (dest.filter (fun e => !decide (e.bucket = p.1 ∧ e.base = p.2))).find?
      (fun e => decide (e.bucket = p.1 ∧ e.base = p.2)) = none := by
    rw [List.find?_eq_none]
    intro e he
    rcases List.mem_filter.mp he with ⟨-, hkeep⟩
    simp only [Bool.not_eq_true', decide_eq_false_iff_not] at hkeep
    simp only [decide_eq_true_eq]
    exact hkeep
  simp only [lookupDest, writeDest]
  rw [List.find?_append, h1, Option.none_or, List.find?_cons_of_pos _ (by simp)]
  rfl

theorem lookupDest_writeDest_ne (dest : List DestEntry) (p q : String × String) (f : SrcFile)
    (h : q ≠ p) : lookupDest (writeDest dest p f) q = lookupDest dest q := by
  have hlast : List.find? (fun e => decide (e.bucket = q.1 ∧ e.base = q.2))
      [DestEntry.mk p.1 p.2 f.id f.size] = none := by
    rw [List.find?_eq_none]
    intro e he
    rcases List.mem_singleton.mp he with rfl
    simp only [Bool.not_eq_true, decide_eq_false_iff_not]
    rintro ⟨h1, h2⟩
    exact h (Prod.ext_iff.mpr ⟨h1.symm, h2.symm⟩)
  have himp : ∀ e : DestEntry, (fun e => decide (e.bucket = q.1 ∧ e.base = q.2)) e = true →
      (fun e => !decide (e.bucket = p.1 ∧ e.base = p.2)) e = true := by
    intro e he
    simp only [decide_eq_true_eq] at he
    simp only [Bool.not_eq_true', decide_eq_false_iff_not]
    rintro ⟨h1, h2⟩
    exact h (Prod.ext_iff.mpr ⟨he.1.symm.trans h1, he.2.symm.trans h2⟩)
  simp only [lookupDest, writeDest]
  rw [List.find?_append, find?_filter_of_imp _ _ dest himp, hlast, Option.or_none]

theorem destExists_eq_isSome (dest : List DestEntry) (p : String × String) :
    destExists dest p = (lookupDest dest p).isSome := by
  rw [Bool.eq_iff_iff]
  simp [destExists, lookupDest, List.any_eq_true, List.find?_isSome]

theorem destExists_writeDest_self (dest : List DestEntry) (p : String × String) (f : SrcFile) :
    destExists (writeDest dest p f) p = true := by
  rw [destExists_eq_isSome, lookupDest_writeDest_self]
  rfl

theorem destExists_writeDest_mono (dest : List DestEntry) (p q : String × String) (f : SrcFile)
    (h : destExists dest p = true) : destExists (writeDest dest q f) p = true := by
  by_cases hpq : p = q
  · subst hpq
    exact destExists_writeDest_self dest p f
  · rw [destExists_eq_isSome, lookupDest_writeDest_ne dest q p f hpq, ← destExists_eq_isSome]
    exact h

/-! ### Lemmas about the per-candidate loop -/

theorem processOne_eq (mode : Mode) ( mkdirFail transferFail : SrcFile → Bool)
    (st : LoopState) (f : SrcFile) :
    processOne mode mkdirFail transferFail st f
      = if okTransfer mkdirFail transferFail f = true then
          LoopState.mk
            (match mode with
              | Mode.move => st.src.filter (fun g => !decide (g.id = f.id))
              | Mode.copy => st.src)
            (writeDest st.dest (destPathOf f) f) (st.processed + 1) (st.bytes + f.size)
        else st := by
  cases hm : mkdirFail f <;> cases ht : transferFail f <;>
    simp [processOne, okTransfer, hm, ht]

theorem runLoop_nil (mode : Mode) ( mkdirFail transferFail : SrcFile → Bool) (st : LoopState) :
    runLoop mode mkdirFail transferFail st [] = st := rfl

theorem runLoop_cons (mode : Mode) ( mkdirFail transferFail : SrcFile → Bool)
    (st : LoopState) (f : SrcFile) (l : List SrcFile) :
    runLoop mode mkdirFail transferFail st (f :: l)
      = runLoop mode mkdirFail transferFail (processOne mode mkdirFail transferFail st f) l := rfl

theorem runLoop_processed (mode : Mode) ( mkdirFail transferFail : SrcFile → Bool)
    (l : List SrcFile) (st : LoopState) :
    (runLoop mode mkdirFail transferFail st l).processed
      = st.processed + l.countP (okTransfer mkdirFail transferFail) := by
  induction l generalizing st with
  | nil => simp [runLoop_nil]
  | cons f l ih =>
    rw [runLoop_cons, ih, processOne_eq, List.countP_cons]
    by_cases h : okTransfer mkdirFail transferFail f = true
    · simp only [if_pos h]
      omega
    · simp only [if_neg h]
      omega

theorem runLoop_src_subset (mode : Mode) ( mkdirFail transferFail : SrcFile → Bool)
    (l : List SrcFile) (st : LoopState) :
    (runLoop mode mkdirFail transferFail st l).src ⊆ st.src := by
  induction l generalizing st with
  | nil => exact fun x hx => hx
  | cons f l ih =>
    rw [runLoop_cons]
    refine (ih _).trans ?_
    rw [processOne_eq]
    by_cases h : okTransfer mkdirFail transferFail f = true
    · simp only [if_pos h]
      cases mode
      · exact fun x hx => hx
      · exact fun x hx => List.mem_of_mem_filter hx
    · simp only [if_neg h]
      exact fun x hx => hx

theorem runLoop_src_mem (mode : Mode) ( mkdirFail transferFail : SrcFile → Bool)
    (l : List SrcFile) (st : LoopState) (g : SrcFile) (hg : g ∈ st.src)
    (h : ∀ c ∈ l, okTransfer mkdirFail transferFail c = true → c.id ≠ g.id) :
    g ∈ (runLoop mode mkdirFail transferFail st l).src := by
  induction l generalizing st with
  | nil => exact hg
  | cons f l ih =>
    rw [runLoop_cons]
    refine ih _ ?_ fun c hc hokc => h c (List.mem_cons_of_mem f hc) hokc
    rw [processOne_eq]
    by_cases hok : okTransfer mkdirFail transferFail f = true
    · simp only [if_pos hok]
      cases mode
      · exact hg
      · exact List.mem_filter.mpr
          ⟨hg, by simpa using Ne.symm (h f (List.mem_cons_self f l) hok)⟩
    · simp only [if_neg hok]
      exact hg

theorem runLoop_src_removed (mode : Mode) ( mkdirFail transferFail : SrcFile → Bool)
    (l : List SrcFile) (st : LoopState) (g : SrcFile) (hg : g ∈ st.src)
    (hout : g ∉ (runLoop mode mkdirFail transferFail st l).src) :
    ∃ c ∈ l, okTransfer mkdirFail transferFail c = true ∧ c.id = g.id := by
  by_contra hcon
  push_neg at hcon
  exact hout (runLoop_src_mem mode mkdirFail transferFail l st g hg hcon)

theorem runLoop_destExists_mono (mode : Mode) ( mkdirFail transferFail : SrcFile → Bool)
    (l : List SrcFile) (st : LoopState) (p : String × String)
    (h : destExists st.dest p = true) :
    destExists (runLoop mode mkdirFail transferFail st l).dest p = true := by
  induction l generalizing st with
  | nil => exact h
  | cons f l ih =>
    rw [runLoop_cons]
    refine ih _ ?_
    rw [processOne_eq]
    by_cases hok : okTransfer mkdirFail transferFail f = true
    · simp only [if_pos hok]
      exact destExists_writeDest_mono _ _ _ _ h
    · simp only [if_neg hok]
      exact h

theorem runLoop_destExists_written (mode : Mode) ( mkdirFail transferFail : SrcFile → Bool)
    (l : List SrcFile) (st : LoopState) (f : SrcFile) (hf : f ∈ l)
    (hok : okTransfer mkdirFail transferFail f = true) :
    destExists (runLoop mode mkdirFail transferFail st l).dest (destPathOf f) = true := by
  induction l generalizing st with
  | nil => cases hf
  | cons c l ih =>
    rw [runLoop_cons]
    rcases List.mem_cons.mp hf with rfl | hf'
    · refine runLoop_destExists_mono mode mkdirFail transferFail l _ _ ?_
      rw [processOne_eq, if_pos hok]
      exact destExists_writeDest_self _ _ _
    · exact ih _ hf'

theorem runLoop_lookupDest (mode : Mode) ( mkdirFail transferFail : SrcFile → Bool)
    (l : List SrcFile) (st : LoopState) (p : String × String) :
    lookupDest (runLoop mode mkdirFail transferFail st l).dest p
      = ((l.filter (fun f => okTransfer mkdirFail transferFail f
            && decide (destPathOf f = p))).getLast?.map SrcFile.id).or
          (lookupDest st.dest p) := by
  induction l generalizing st with
  | nil => simp [runLoop_nil]
  | cons f l ih =>
    rw [runLoop_cons, ih]
    by_cases hq : (okTransfer mkdirFail transferFail f && decide (destPathOf f = p)) = true
    · have hboth : okTransfer mkdirFail transferFail f = true ∧ destPathOf f = p := by
        simpa using hq
      have hwrite : lookupDest (processOne mode mkdirFail transferFail st f).dest p
          = some f.id := by
        rw [processOne_eq, if_pos hboth.1, ← hboth.2]
        exact lookupDest_writeDest_self _ _ _
      have hfc : (f :: l).filter (fun g => okTransfer mkdirFail transferFail g
            && decide (destPathOf g = p))
          = f :: l.filter (fun g => okTransfer mkdirFail transferFail g
            && decide (destPathOf g = p)) := List.filter_cons_of_pos hq
      rw [hwrite, hfc]
      cases hfl : l.filter (fun g => okTransfer mkdirFail transferFail g
          && decide (destPathOf g = p)) with
      | nil => simp
      | cons y ys =>
        rw [List.getLast?_cons_cons, List.getLast?_eq_getLast (y :: ys) (by simp)]
        rfl
    · have hkeep : lookupDest (processOne mode mkdirFail transferFail st f).dest p
          = lookupDest st.dest p := by
        rw [processOne_eq]
        by_cases hok : okTransfer mkdirFail transferFail f = true
        · rw [if_pos hok]
          have hp : p ≠ destPathOf f := by
            intro e
            exact hq (by simp [hok, e.symm])
          exact lookupDest_writeDest_ne _ _ _ _ hp
        · rw [if_neg hok]
      have hfc : (f :: l).filter (fun g => okTransfer mkdirFail transferFail g
            && decide (destPathOf g = p))
          = l.filter (fun g => okTransfer mkdirFail transferFail g
            && decide (destPathOf g = p)) := List.filter_cons_of_neg hq
      rw [hkeep, hfc]

/-! ### Unfolding the engine -/

theorem copy_or_move_files_run (mode : Mode) ( mkdirFail transferFail : SrcFile → Bool)
    (fs : FS) :
    copy_or_move_files mode false mkdirFail transferFail fs
      = (Outcome.mk true
          (runLoop mode mkdirFail transferFail
            ⟨fs.srcFiles, fs.destFiles, 0, 0⟩ (candidates fs)).processed
          (candidates fs).length
          (runLoop mode mkdirFail transferFail
            ⟨fs.srcFiles, fs.destFiles, 0, 0⟩ (candidates fs)).bytes,
         FS.mk
          (runLoop mode mkdirFail transferFail
            ⟨fs.srcFiles, fs.destFiles, 0, 0⟩ (candidates fs)).src
          (runLoop mode mkdirFail transferFail
            ⟨fs.srcFiles, fs.destFiles, 0, 0⟩ (candidates fs)).dest) := rfl

theorem run_of_no_candidates (mode : Mode) ( mkdirFail transferFail : SrcFile → Bool)
    (fs : FS) (h : candidates fs = []) :
    copy_or_move_files mode false mkdirFail transferFail fs = (⟨true, 0, 0, 0⟩, fs) := by
  rw [copy_or_move_files_run, h]
  rfl

theorem runLoop_src_copy ( mkdirFail transferFail : SrcFile → Bool)
    (l : List SrcFile) (st : LoopState) :
    (runLoop Mode.copy mkdirFail transferFail st l).src = st.src := by
  induction l generalizing st with
  | nil => rfl
  | cons f l ih =>
    rw [runLoop_cons, ih, processOne_eq]
    by_cases h : okTransfer mkdirFail transferFail f = true
    · rw [if_pos h]
    · rw [if_neg h]

/-! ### Concrete sample states used as witnesses -/

/-- Failure oracle of a run in which nothing raises. -/
def noFail : SrcFile → Bool := fun _ => false

/-- A media file modified on 5 July 2023. -/
def fA : SrcFile := ⟨1, "GOPR0001.MP4", ⟨7, 5, 2023⟩, 100⟩

/-- The destination entry a previous sync of `fA` left behind. -/
def eA : DestEntry := ⟨"07-05-2023", "GOPR0001.MP4", 1, 100⟩

/-- A second media file from the same day. -/
def fB : SrcFile := ⟨2, "GOPR0002.MP4", ⟨7, 5, 2023⟩, 200⟩

/-- A media file modified on 3 January 2024. -/
def fC : SrcFile := ⟨3, "GOPR0003.MP4", ⟨1, 3, 2024⟩, 50⟩

/-- A file in a different source subdirectory whose base name and
modification date coincide with `fB`. -/
def fB2 : SrcFile := ⟨4, "GOPR0002.MP4", ⟨7, 5, 2023⟩, 300⟩

/-- Failure oracle that makes exactly the file with id 2 raise. -/
def failOn2 : SrcFile → Bool := fun f => decide (f.id = 2)

/-! ### The claims -/

/-- C4: the destination bucket of every file is its modification date
formatted as zero-padded month-day-four-digit-year; a file modified on
5 July 2023 lands in bucket `07-05-2023` and one modified on
3 January 2024 in `01-03-2024`. -/
theorem C4_date_bucketing :
    (∀ f : SrcFile, destPathOf f = (fmtDate f.mtime, f.base))
  ∧ fmtDate ⟨7, 5, 2023⟩ = "07-05-2023"
  ∧ fmtDate ⟨1, 3, 2024⟩ = "01-03-2024"
  ∧ (∀ m d y : Nat, m < 10 → d < 10 →
      fmtDate ⟨m, d, y⟩ = ("0" ++ toString m) ++ "-" ++ ("0" ++ toString d) ++ "-" ++ toString y)
  ∧ (∀ m d y : Nat, 10 ≤ m → 10 ≤ d →
      fmtDate ⟨m, d, y⟩ = toString m ++ "-" ++ toString d ++ "-" ++ toString y) := by
  refine ⟨fun f => rfl, by decide, by decide, ?_, ?_⟩
  · intro m d y hm hd
    simp only [fmtDate, pad2]
    rw [if_pos hm, if_pos hd]
  · intro m d y hm hd
    simp only [fmtDate, pad2]
    rw [if_neg (by omega), if_neg (by omega)]

/-- Witness for C4 at a concrete single-digit month and day. -/
theorem C4_witness :
    fmtDate ⟨2, 9, 2025⟩ = ("0" ++ toString 2) ++ "-" ++ ("0" ++ toString 9) ++ "-" ++ toString 2025 :=
  C4_date_bucketing.2.2.2.1 2 9 2025 (by decide) (by decide)

/-- C6: when the destination root cannot be created the engine returns
overall failure with zero files processed and touches nothing; otherwise
the outcome's success flag is true. -/
theorem C6_batch_fatal (mode : Mode) ( mkdirFail transferFail : SrcFile → Bool) (fs : FS) :
    ((copy_or_move_files mode true mkdirFail transferFail fs).1.success = false
      ∧ (copy_or_move_files mode true mkdirFail transferFail fs).1.processed = 0
      ∧ (copy_or_move_files mode true mkdirFail transferFail fs).2 = fs)
  ∧ (copy_or_move_files mode false mkdirFail transferFail fs).1.success = true := by
  refine ⟨⟨rfl, rfl, rfl⟩, ?_⟩
  rw [copy_or_move_files_run]

/-- C7: an empty candidate set yields a success outcome with zero files
processed, zero candidates and zero bytes, and leaves the state unchanged. -/
theorem C7_empty_candidates (mode : Mode) ( mkdirFail transferFail : SrcFile → Bool)
    (fs : FS) (h : candidates fs = []) :
    (copy_or_move_files mode false mkdirFail transferFail fs).1 = ⟨true, 0, 0, 0⟩ := by
  rw [run_of_no_candidates mode mkdirFail transferFail fs h]

/-- Witness for C7: a source whose single file already sits in its
destination bucket yields no candidates and a zero success outcome. -/
theorem C7_witness :
    candidates ⟨[fA], [eA]⟩ = []
      ∧ (copy_or_move_files Mode.copy false noFail noFail ⟨[fA], [eA]⟩).1 = ⟨true, 0, 0, 0⟩ :=
  ⟨by decide, C7_empty_candidates Mode.copy noFail noFail ⟨[fA], [eA]⟩ (by decide)⟩

/-- C10: whenever the engine reports overall failure, all three counters
of the outcome are zero. -/
theorem C10_failure_zero_counters (mode : Mode) (rootFail : Bool)
    ( mkdirFail transferFail : SrcFile → Bool) (fs : FS)
    (h : (copy_or_move_files mode rootFail mkdirFail transferFail fs).1.success = false) :
    (copy_or_move_files mode rootFail mkdirFail transferFail fs).1.processed = 0
  ∧ (copy_or_move_files mode rootFail mkdirFail transferFail fs).1.total = 0
  ∧ (copy_or_move_files mode rootFail mkdirFail transferFail fs).1.bytes = 0 := by
  cases rootFail with
  | false =>
    rw [copy_or_move_files_run] at h
    cases h
  | true => exact ⟨rfl, rfl, rfl⟩

/-- Witness for C10: an uncreatable destination root gives a failure
outcome, and indeed all its counters are zero. -/
theorem C10_witness :
    (copy_or_move_files Mode.copy true noFail noFail ⟨[fA], []⟩).1.success = false
      ∧ (copy_or_move_files Mode.copy true noFail noFail ⟨[fA], []⟩).1.processed = 0
      ∧ (copy_or_move_files Mode.copy true noFail noFail ⟨[fA], []⟩).1.total = 0
      ∧ (copy_or_move_files Mode.copy true noFail noFail ⟨[fA], []⟩).1.bytes = 0 :=
  ⟨rfl, C10_failure_zero_counters Mode.copy true noFail noFail ⟨[fA], []⟩ rfl⟩

/-- C8: when the mount locator never reports a mount inside the 7-second
budget, the process exits with code 0 and the sync engine is never
invoked. -/
theorem C8_polling_timeout (probe : Nat → Option MountInfo) (mode : Mode) (rootFail : Bool)
    ( mkdirFail transferFail : SrcFile → Bool) (h : ∀ t, probe t = none) :
    mainRun probe (handleMount mode rootFail mkdirFail transferFail) = ⟨0, false⟩ := by
  have step : ∀ fuel t,
      mainLoopAux probe (handleMount mode rootFail mkdirFail transferFail) (fuel + 1) t
        = mainLoopAux probe (handleMount mode rootFail mkdirFail transferFail) fuel (t + 1) := by
    intro fuel t
    simp only [mainLoopAux]
    rw [h t]
  show mainLoopAux probe (handleMount mode rootFail mkdirFail transferFail) 7 0 = ⟨0, false⟩
  rw [show (7:Nat) = 6+1 from rfl, step, show (6:Nat) = 5+1 from rfl, step,
    show (5:Nat) = 4+1 from rfl, step, show (4:Nat) = 3+1 from rfl, step,
    show (3:Nat) = 2+1 from rfl, step, show (2:Nat) = 1+1 from rfl, step,
    show (1:Nat) = 0+1 from rfl, step]
  rfl

/-- Witness for C8: a locator that always reports nothing ends the run
with exit code 0 and no engine invocation. -/
theorem C8_witness :
    mainRun (fun _ => none) (handleMount Mode.copy false noFail noFail) = ⟨0, false⟩ :=
  C8_polling_timeout (fun _ => none) Mode.copy false noFail noFail (fun _ => rfl)

theorem candidates_eq_nil (fs : FS)
    (h : ∀ f ∈ fs.srcFiles, destExists fs.destFiles (destPathOf f) = true) :
    candidates fs = [] := by
  simp only [candidates]
  rw [List.filter_eq_nil_iff]
  intro f hf
  simp [h f hf]

theorem countP_okTransfer_add ( mkdirFail transferFail : SrcFile → Bool) (l : List SrcFile) :
    l.countP (okTransfer mkdirFail transferFail)
      + l.countP (fun f => mkdirFail f || transferFail f) = l.length := by
  induction l with
  | nil => rfl
  | cons a l ih =>
    cases hm : mkdirFail a <;> cases ht : transferFail a <;>
      simp [List.countP_cons, okTransfer, hm, ht] <;> omega

/-- C1: a file is a transfer candidate iff no file with the same base name
already exists at `DEST_DIR/<bucket>/<basename>`; files failing the check
are not candidates, are not counted, stay in the source tree even in move
mode, and a destination path no candidate maps to is left untouched. -/
theorem C1_candidate_rule (mode : Mode) ( mkdirFail transferFail : SrcFile → Bool) (fs : FS)
    (hids : (fs.srcFiles.map SrcFile.id).Nodup) :
    (∀ f ∈ fs.srcFiles,
        (f ∈ candidates fs ↔ destExists fs.destFiles (destPathOf f) = false))
  ∧ (copy_or_move_files mode false mkdirFail transferFail fs).1.total = (candidates fs).length
  ∧ (∀ f ∈ fs.srcFiles, destExists fs.destFiles (destPathOf f) = true →
        f ∈ (copy_or_move_files mode false mkdirFail transferFail fs).2.srcFiles)
  ∧ (∀ p : String × String, (∀ c ∈ candidates fs, destPathOf c ≠ p) →
        lookupDest (copy_or_move_files mode false mkdirFail transferFail fs).2.destFiles p
          = lookupDest fs.destFiles p) := by
  refine ⟨?_, by rw [copy_or_move_files_run], ?_, ?_⟩
  · intro f hf
    simp [candidates, List.mem_filter, hf]
  · intro f hf hex
    rw [copy_or_move_files_run]
    refine runLoop_src_mem mode mkdirFail transferFail (candidates fs)
      ⟨fs.srcFiles, fs.destFiles, 0, 0⟩ f hf ?_
    intro c hc hok heq
    have hcs := List.mem_filter.mp hc
    have hceq : c = f := List.inj_on_of_nodup_map hids hcs.1 hf heq
    have hcs2 := hcs.2
    rw [hceq, hex] at hcs2
    simp at hcs2
  · intro p hp
    rw [copy_or_move_files_run]
    have hnil : (candidates fs).filter
        (fun f => okTransfer mkdirFail transferFail f && decide (destPathOf f = p)) = [] := by
      rw [List.filter_eq_nil_iff]
      intro c hc
      simp [hp c hc]
    show lookupDest (runLoop mode mkdirFail transferFail
        ⟨fs.srcFiles, fs.destFiles, 0, 0⟩ (candidates fs)).dest p = lookupDest fs.destFiles p
    rw [runLoop_lookupDest, hnil]
    rfl

/-- Witness for C1 on a source with one already-synced and one new file. -/
theorem C1_witness :
    ((FS.mk [fA, fB] [eA]).srcFiles.map SrcFile.id).Nodup
  ∧ (copy_or_move_files Mode.copy false noFail noFail ⟨[fA, fB], [eA]⟩).1.total
      = (candidates ⟨[fA, fB], [eA]⟩).length :=
  ⟨by decide, (C1_candidate_rule Mode.copy noFail noFail ⟨[fA, fB], [eA]⟩ (by decide)).2.1⟩

/-- C2: immediately after a fully successful pass, a second run of the
engine on the resulting state finds zero candidates and transfers zero
files (it returns success with all counters zero and changes nothing). -/
theorem C2_idempotent (mode : Mode) (fs : FS) :
    candidates (copy_or_move_files mode false noFail noFail fs).2 = []
  ∧ copy_or_move_files mode false noFail noFail
        (copy_or_move_files mode false noFail noFail fs).2
      = (⟨true, 0, 0, 0⟩, (copy_or_move_files mode false noFail noFail fs).2) := by
  have hempty : candidates (copy_or_move_files mode false noFail noFail fs).2 = [] := by
    refine candidates_eq_nil _ ?_
    intro f hf
    rw [copy_or_move_files_run] at hf
    have hf' : f ∈ fs.srcFiles :=
      runLoop_src_subset mode noFail noFail (candidates fs) ⟨fs.srcFiles, fs.destFiles, 0, 0⟩ hf
    rw [copy_or_move_files_run]
    show destExists (runLoop mode noFail noFail ⟨fs.srcFiles, fs.destFiles, 0, 0⟩
        (candidates fs)).dest (destPathOf f) = true
    by_cases hex : destExists fs.destFiles (destPathOf f) = true
    · exact runLoop_destExists_mono mode noFail noFail (candidates fs) _ _ hex
    · have hex' : destExists fs.destFiles (destPathOf f) = false := Bool.eq_false_iff.mpr hex
      have hcand : f ∈ candidates fs := List.mem_filter.mpr ⟨hf', by simp [hex']⟩
      exact runLoop_destExists_written mode noFail noFail (candidates fs) _ f hcand rfl
  exact ⟨hempty, run_of_no_candidates mode noFail noFail _ hempty⟩

/-- C3: when exactly one candidate's transfer fails (its bucket cannot be
created or the transfer itself raises), the engine still succeeds overall,
reports `processed = N - 1` and `total = N`. -/
theorem C3_failure_isolation (mode : Mode) ( mkdirFail transferFail : SrcFile → Bool) (fs : FS)
    (h : (candidates fs).countP (fun f => mkdirFail f || transferFail f) = 1) :
    (copy_or_move_files mode false mkdirFail transferFail fs).1.success = true
  ∧ (copy_or_move_files mode false mkdirFail transferFail fs).1.processed
      = (candidates fs).length - 1
  ∧ (copy_or_move_files mode false mkdirFail transferFail fs).1.total
      = (candidates fs).length := by
  refine ⟨by rw [copy_or_move_files_run], ?_, by rw [copy_or_move_files_run]⟩
  rw [copy_or_move_files_run]
  show (runLoop mode mkdirFail transferFail ⟨fs.srcFiles, fs.destFiles, 0, 0⟩
      (candidates fs)).processed = (candidates fs).length - 1
  rw [runLoop_processed]
  show 0 + (candidates fs).countP (okTransfer mkdirFail transferFail)
    = (candidates fs).length - 1
  have hadd := countP_okTransfer_add mkdirFail transferFail (candidates fs)
  omega

/-- Witness for C3: two candidates of which exactly the transfer of the
file with id 2 raises. -/
theorem C3_witness :
    (candidates ⟨[fB, fC], []⟩).countP (fun f => noFail f || failOn2 f) = 1
  ∧ (copy_or_move_files Mode.copy false noFail failOn2 ⟨[fB, fC], []⟩).1.processed
      = (candidates ⟨[fB, fC], []⟩).length - 1 :=
  ⟨by decide, (C3_failure_isolation Mode.copy noFail failOn2 ⟨[fB, fC], []⟩ (by decide)).2.1⟩

/-- C5: copy mode leaves the source tree completely unchanged; move mode
removes a source file only when it was a candidate whose destination write
succeeded (and its copy then exists at the destination path); a candidate
whose transfer failed is never removed. -/
theorem C5_move_after_write ( mkdirFail transferFail : SrcFile → Bool) (fs : FS)
    (hids : (fs.srcFiles.map SrcFile.id).Nodup) :
    ((copy_or_move_files Mode.copy false mkdirFail transferFail fs).2.srcFiles = fs.srcFiles)
  ∧ (∀ f ∈ fs.srcFiles,
      f ∉ (copy_or_move_files Mode.move false mkdirFail transferFail fs).2.srcFiles →
        f ∈ candidates fs ∧ okTransfer mkdirFail transferFail f = true
          ∧ destExists
              (copy_or_move_files Mode.move false mkdirFail transferFail fs).2.destFiles
              (destPathOf f) = true)
  ∧ (∀ f ∈ candidates fs, okTransfer mkdirFail transferFail f = false →
        f ∈ (copy_or_move_files Mode.move false mkdirFail transferFail fs).2.srcFiles) := by
  refine ⟨?_, ?_, ?_⟩
  · rw [copy_or_move_files_run]
    exact runLoop_src_copy mkdirFail transferFail (candidates fs) _
  · intro f hf hout
    rw [copy_or_move_files_run] at hout
    obtain ⟨c, hc, hokc, hcid⟩ := runLoop_src_removed Mode.move mkdirFail transferFail
      (candidates fs) ⟨fs.srcFiles, fs.destFiles, 0, 0⟩ f hf hout
    have hcsrc : c ∈ fs.srcFiles := List.mem_of_mem_filter hc
    have hceq : c = f := List.inj_on_of_nodup_map hids hcsrc hf hcid
    subst hceq
    refine ⟨hc, hokc, ?_⟩
    rw [copy_or_move_files_run]
    exact runLoop_destExists_written Mode.move mkdirFail transferFail (candidates fs) _ c hc hokc
  · intro f hf hfail
    rw [copy_or_move_files_run]
    refine runLoop_src_mem Mode.move mkdirFail transferFail (candidates fs)
      ⟨fs.srcFiles, fs.destFiles, 0, 0⟩ f (List.mem_of_mem_filter hf) ?_
    intro c hc hokc heq
    have hceq : c = f := List.inj_on_of_nodup_map hids (List.mem_of_mem_filter hc)
      (List.mem_of_mem_filter hf) heq
    rw [hceq, hfail] at hokc
    exact Bool.false_ne_true hokc

/-- Witness for C5: a copy-mode run on a two-file source keeps the source
list intact. -/
theorem C5_witness :
    ((FS.mk [fA, fB] [eA]).srcFiles.map SrcFile.id).Nodup
  ∧ (copy_or_move_files Mode.copy false noFail noFail ⟨[fA, fB], [eA]⟩).2.srcFiles = [fA, fB] :=
  ⟨by decide, (C5_move_after_write noFail noFail ⟨[fA, fB], [eA]⟩ (by decide)).1⟩

/-- C9: when exactly two source files map to the same fresh destination
path, both are candidates, both are counted and transferred, and the file
that comes later in enumeration order is the one left at the shared
destination path. -/
theorem C9_duplicate_basename (mode : Mode) (fs : FS) (a b : SrcFile) (p : String × String)
    (hfilter : fs.srcFiles.filter (fun f => decide (destPathOf f = p)) = [a, b])
    (hnew : destExists fs.destFiles p = false) :
    a ∈ candidates fs ∧ b ∈ candidates fs
  ∧ (copy_or_move_files mode false noFail noFail fs).1.total = (candidates fs).length
  ∧ (copy_or_move_files mode false noFail noFail fs).1.processed = (candidates fs).length
  ∧ lookupDest (copy_or_move_files mode false noFail noFail fs).2.destFiles p = some b.id := by
  have hmem : ∀ g ∈ ([a, b] : List SrcFile), g ∈ fs.srcFiles ∧ destPathOf g = p := by
    intro g hg
    rw [← hfilter] at hg
    have hgf := List.mem_filter.mp hg
    exact ⟨hgf.1, of_decide_eq_true hgf.2⟩
  have hcand : ∀ g ∈ ([a, b] : List SrcFile), g ∈ candidates fs := by
    intro g hg
    refine List.mem_filter.mpr ⟨(hmem g hg).1, ?_⟩
    rw [(hmem g hg).2, hnew]
    rfl
  refine ⟨hcand a (by simp), hcand b (by simp), by rw [copy_or_move_files_run], ?_, ?_⟩
  · rw [copy_or_move_files_run]
    show (runLoop mode noFail noFail ⟨fs.srcFiles, fs.destFiles, 0, 0⟩
        (candidates fs)).processed = (candidates fs).length
    have hcp : (candidates fs).countP (okTransfer noFail noFail) = (candidates fs).length :=
      List.countP_eq_length.mpr fun x hx => rfl
    rw [runLoop_processed, hcp]
    show 0 + (candidates fs).length = (candidates fs).length
    exact Nat.zero_add _
  · rw [copy_or_move_files_run]
    show lookupDest (runLoop mode noFail noFail ⟨fs.srcFiles, fs.destFiles, 0, 0⟩
        (candidates fs)).dest p = some b.id
    rw [runLoop_lookupDest]
    have h1 : (candidates fs).filter
        (fun f => okTransfer noFail noFail f && decide (destPathOf f = p))
        = (candidates fs).filter (fun f => decide (destPathOf f = p)) :=
      List.filter_congr fun x hx => by simp [okTransfer, noFail]
    have h2 : (candidates fs).filter (fun f => decide (destPathOf f = p))
        = fs.srcFiles.filter (fun f => decide (destPathOf f = p)
            && !destExists fs.destFiles (destPathOf f)) := List.filter_filter _ _
    have h3 : fs.srcFiles.filter (fun f => decide (destPathOf f = p)
          && !destExists fs.destFiles (destPathOf f))
        = fs.srcFiles.filter (fun f => decide (destPathOf f = p)) := by
      refine List.filter_congr fun x hx => ?_
      by_cases hx2 : destPathOf x = p
      · rw [hx2, hnew]
        simp
      · simp [hx2]
    rw [h1, h2, h3, hfilter, List.getLast?_cons_cons, List.getLast?_singleton]
    rfl

/-- Witness for C9: two files that share base name `GOPR0002.MP4` and the
`07-05-2023` bucket; the run ends with the second one's bytes at the shared
path. -/
theorem C9_witness :
    ([fB, fB2] : List SrcFile).filter
        (fun f => decide (destPathOf f = ("07-05-2023", "GOPR0002.MP4"))) = [fB, fB2]
  ∧ lookupDest (copy_or_move_files Mode.copy false noFail noFail
        ⟨[fB, fB2], []⟩).2.destFiles ("07-05-2023", "GOPR0002.MP4") = some fB2.id :=
  ⟨by decide, (C9_duplicate_basename Mode.copy ⟨[fB, fB2], []⟩ fB fB2
    ("07-05-2023", "GOPR0002.MP4") (by decide) (by decide)).2.2.2.2⟩

end GoProSync
